import Mathlib

/-!
Shallow embedding of src/vector.c (a dynamic int vector).

State model. A C vector holds a pointer `contents`, a `size` and a
`capacity`. We model the allocated block contents as `buf : List Int`
(with `buf.length = capacity` as an invariant), and track with
`allocated : Bool` whether a live heap block currently backs the pointer;
a NULL pointer and a dangling pointer after free both count as
unallocated.

Allocator model. `realloc` may fail (returns NULL, original block kept
intact) or succeed; on success it preserves the first
`min (old length) count` elements and the remaining new slots hold
unspecified values. We make both sources of nondeterminism explicit
parameters: `allocOk : Bool` tells whether the (single) allocation an
operation performs succeeds, and `junk : Nat → Int` gives the
unspecified contents of freshly obtained slots. `realloc(p, 0)` is
modelled as free-and-return-NULL, the glibc behaviour the C code relies
on (it treats a NULL result with `count == 0` as success).
-/

structure CVec where
  buf : List Int
  size : Nat
  capacity : Nat
  allocated : Bool
deriving Repr, DecidableEq

/-- `nth l i` reads slot `i` of a buffer, defaulting to 0 out of range. -/
def nth (l : List Int) (i : Nat) : Int :=
  l.getD i 0

/-- Contents of the block returned by a successful `realloc(old, count)`:
the first `min old.length count` slots are preserved, the rest are
unspecified (given by the oracle `junk`). -/
def reallocBuf (old : List Int) (count : Nat) (junk : Nat → Int) : List Int :=
  (List.range count).map (fun i => if i < old.length then old.getD i 0 else junk i)

/-- `memmove(buf + dst, buf + src, len * sizeof(T))` inside one buffer:
slot `j` in `[dst, dst+len)` receives old slot `src + (j - dst)`, all
other slots are unchanged. -/
def memmove (buf : List Int) (dst src len : Nat) : List Int :=
  (List.range buf.length).map
    (fun j => if dst ≤ j ∧ j < dst + len then buf.getD (src + (j - dst)) 0 else buf.getD j 0)

/-- `vector_reserve` (src/vector.c lines 76-87): if `count <= capacity`
return OK unchanged; otherwise realloc to exactly `count` slots; on
realloc failure return BAD_ALLOC with the vector untouched. -/
def vector_reserve (vec : CVec) (count : Nat) (allocOk : Bool) (junk : Nat → Int) : CVec × Bool :=
  if count ≤ vec.capacity then
    (vec, true)
  else if allocOk then
    ({ buf := reallocBuf vec.buf count junk, size := vec.size,
       capacity := count, allocated := true }, true)
  else
    (vec, false)

/-- `vector_init` (lines 49-54): writes `contents = NULL, size = 0,
capacity = 0` and then returns `vector_reserve(vec, INIT_CAPACITY)` with
`INIT_CAPACITY = 8`. The incoming state is ignored (overwritten). -/
def vector_init (vec : CVec) (allocOk : Bool) (junk : Nat → Int) : CVec × Bool :=
  vector_reserve { buf := [], size := 0, capacity := 0, allocated := false } 8 allocOk junk

/-- `vector_clear` (lines 62-66): frees the block (so no block is
allocated any more; the pointer itself is left dangling, which our
`allocated` flag records as unallocated) and resets both counters. -/
def vector_clear (vec : CVec) : CVec :=
  { buf := [], size := 0, capacity := 0, allocated := false }

/-- `vector_resize` (lines 96-108): realloc to `count` slots; failure
only when the result is NULL and `count != 0`. The subsequent
`memset(vec->contents + count, 0, (count - size) * sizeof(T))` starts at
offset `count` — past the end of the `count`-slot block — and goes
through the stale pre-realloc pointer, so it never writes into the
vector buffer (it only clobbers unrelated memory); hence no slot of the
new buffer is zeroed by it. Then `size` and `capacity` are set to
`count`. -/
def vector_resize (vec : CVec) (count : Nat) (allocOk : Bool) (junk : Nat → Int) : CVec × Bool :=
  if count = 0 then
    ({ buf := [], size := 0, capacity := 0, allocated := false }, true)
  else if allocOk then
    ({ buf := reallocBuf vec.buf count junk, size := count,
       capacity := count, allocated := true }, true)
  else
    (vec, false)

/-- The assignment loop of `vector_assign` (lines 117-119): writes
`value` into every slot of `[0, count)`. -/
def assignLoop (buf : List Int) (count : Nat) (value : Int) : List Int :=
  (List.range count).foldl (fun b i => b.set i value) buf

/-- `vector_assign` (lines 115-123): resize, and on success overwrite
all slots in `[0, count)` with `value`; on resize failure return
BAD_ALLOC. -/
def vector_assign (vec : CVec) (count : Nat) (value : Int) (allocOk : Bool)
    (junk : Nat → Int) : CVec × Bool :=
  let r := vector_resize vec count allocOk junk
  if r.2 then
    ({ r.1 with buf := assignLoop r.1.buf count value }, true)
  else
    (r.1, false)

/-- The growth gate shared by `vector_push_back` and `vector_insert`
(lines 131 and 161): when `size == capacity`, call
`vector_reserve(vec, SCALING_FACTOR * size + 1)` with
`SCALING_FACTOR = 2`; thanks to short-circuit evaluation, no reserve
happens otherwise. -/
def growStep (vec : CVec) (allocOk : Bool) (junk : Nat → Int) : CVec × Bool :=
  if vec.size = vec.capacity then
    vector_reserve vec (2 * vec.size + 1) allocOk junk
  else
    (vec, true)

/-- `vector_push_back` (lines 130-137): when full, grow via
`vector_reserve(vec, 2 * size + 1)` (SCALING_FACTOR = 2); on growth
failure return BAD_ALLOC untouched; otherwise write `value` at index
`size` and increment `size`. -/
def vector_push_back (vec : CVec) (value : Int) (allocOk : Bool) (junk : Nat → Int) : CVec × Bool :=
  let p := growStep vec allocOk junk
  if p.2 then
    ({ p.1 with buf := p.1.buf.set p.1.size value, size := p.1.size + 1 }, true)
  else
    (p.1, false)

/-- `vector_pop_back` (lines 144-150): fails on an empty vector,
otherwise decrements `size`. -/
def vector_pop_back (vec : CVec) : CVec × Bool :=
  if vec.size = 0 then
    (vec, false)
  else
    ({ vec with size := vec.size - 1 }, true)

/-- `vector_insert` (lines 157-168): rejects `index >= size` (the
`index < 0` test is unreachable for an unsigned index); grows like
push_back when full; then `memmove` shifts `[index, size)` one slot
right, `value` is written at `index` and `size` is incremented. -/
def vector_insert (vec : CVec) (index : Nat) (value : Int) (allocOk : Bool)
    (junk : Nat → Int) : CVec × Bool :=
  if vec.size ≤ index then
    (vec, false)
  else
    let p := growStep vec allocOk junk
    if p.2 then
      ({ p.1 with
         buf := (memmove p.1.buf (index + 1) index (p.1.size - index)).set index value,
         size := p.1.size + 1 }, true)
    else
      (p.1, false)

/-- `vector_erase_range` (lines 175-182): rejects
`leftmost > rightmost || rightmost >= size` (the `leftmost < 0` test is
unreachable); otherwise `memmove` shifts the elements after `rightmost`
left to start at `leftmost` and `size` drops by the range length. -/
def vector_erase_range (vec : CVec) (leftmost rightmost : Nat) : CVec × Bool :=
  if rightmost < leftmost ∨ vec.size ≤ rightmost then
    (vec, false)
  else
    ({ vec with
       buf := memmove vec.buf leftmost (rightmost + 1) (vec.size - rightmost - 1),
       size := vec.size - (rightmost - leftmost + 1) }, true)

/-- `vector_erase` (lines 189-191). -/
def vector_erase (vec : CVec) (index : Nat) : CVec × Bool :=
  vector_erase_range vec index index

/-- The data-model invariants of the spec (section 3): `size <= capacity`
and the buffer is null/unallocated exactly when `capacity = 0`, together
with the modelling invariant that the block holds `capacity` slots. -/
def VecInv (vec : CVec) : Prop :=
  vec.size ≤ vec.capacity ∧ (vec.allocated = true ↔ vec.capacity ≠ 0) ∧
    vec.buf.length = vec.capacity

instance (vec : CVec) : Decidable (VecInv vec) := by
  unfold VecInv
  infer_instance

/-- One operation of the interface, used to quantify over all operations. -/
inductive Op where
  | init
  | clear
  | reserve (count : Nat)
  | resize (count : Nat)
  | assign (count : Nat) (value : Int)
  | push_back (value : Int)
  | pop_back
  | insert (index : Nat) (value : Int)
  | erase_range (leftmost rightmost : Nat)
  | erase (index : Nat)

/-- The state after running one operation (the returned status is
dropped; on failure the state the C code leaves behind is kept). -/
def applyOp (op : Op) (allocOk : Bool) (junk : Nat → Int) (vec : CVec) : CVec :=
  match op with
  | .init => (vector_init vec allocOk junk).1
  | .clear => vector_clear vec
  | .reserve count => (vector_reserve vec count allocOk junk).1
  | .resize count => (vector_resize vec count allocOk junk).1
  | .assign count value => (vector_assign vec count value allocOk junk).1
  | .push_back value => (vector_push_back vec value allocOk junk).1
  | .pop_back => (vector_pop_back vec).1
  | .insert index value => (vector_insert vec index value allocOk junk).1
  | .erase_range leftmost rightmost => (vector_erase_range vec leftmost rightmost).1
  | .erase index => (vector_erase vec index).1

/-- Fold a list of pushed values through `vector_push_back` with a
never-failing allocator. -/
def pushAll (vs : List Int) (junk : Nat → Int) (vec : CVec) : CVec :=
  vs.foldl (fun acc v => (vector_push_back acc v true junk).1) vec

/-! ### Buffer lemmas -/

lemma nth_of_length_le (l : List Int) (i : Nat) (h : l.length ≤ i) : nth l i = 0 := by
  simp [nth, List.getD_eq_getElem?_getD, List.getElem?_eq_none h]

lemma nth_map_range (n : Nat) (f : Nat → Int) (i : Nat) (h : i < n) :
    nth ((List.range n).map f) i = f i := by
  simp [nth, List.getD_eq_getElem?_getD, List.getElem?_map, List.getElem?_range h]

lemma nth_set_self (l : List Int) (i : Nat) (v : Int) (h : i < l.length) :
    nth (l.set i v) i = v := by
  simp [nth, List.getD_eq_getElem?_getD, List.getElem?_set_self h]

lemma nth_set_ne (l : List Int) (i j : Nat) (v : Int) (h : i ≠ j) :
    nth (l.set i v) j = nth l j := by
  simp [nth, List.getD_eq_getElem?_getD, List.getElem?_set_ne h]

lemma length_reallocBuf (old : List Int) (count : Nat) (junk : Nat → Int) :
    (reallocBuf old count junk).length = count := by
  simp [reallocBuf]

lemma nth_reallocBuf_keep (old : List Int) (count : Nat) (junk : Nat → Int) (i : Nat)
    (hc : i < count) (ho : i < old.length) :
    nth (reallocBuf old count junk) i = nth old i := by
  rw [reallocBuf, nth_map_range _ _ _ hc]
  simp [nth, ho]

lemma nth_reallocBuf_junk (old : List Int) (count : Nat) (junk : Nat → Int) (i : Nat)
    (hc : i < count) (ho : old.length ≤ i) :
    nth (reallocBuf old count junk) i = junk i := by
  rw [reallocBuf, nth_map_range _ _ _ hc]
  simp [Nat.not_lt_of_le ho]

lemma length_memmove (buf : List Int) (dst src len : Nat) :
    (memmove buf dst src len).length = buf.length := by
  simp [memmove]

lemma nth_memmove_in (buf : List Int) (dst src len j : Nat)
    (hj : j < buf.length) (h1 : dst ≤ j) (h2 : j < dst + len) :
    nth (memmove buf dst src len) j = nth buf (src + (j - dst)) := by
  rw [memmove, nth_map_range _ _ _ hj]
  simp [h1, h2, nth]

lemma nth_memmove_out (buf : List Int) (dst src len j : Nat)
    (hj : j < buf.length) (h : j < dst ∨ dst + len ≤ j) :
    nth (memmove buf dst src len) j = nth buf j := by
  rw [memmove, nth_map_range _ _ _ hj]
  have : ¬ (dst ≤ j ∧ j < dst + len) := by omega
  simp [this, nth]

lemma length_assignLoop (buf : List Int) (count : Nat) (value : Int) :
    (assignLoop buf count value).length = buf.length := by
  induction count with
  | zero => simp [assignLoop]
  | succ n ih =>
      simp only [assignLoop, List.range_succ, List.foldl_append, List.foldl_cons,
        List.foldl_nil] at ih ⊢
      simp [ih]

lemma nth_assignLoop (buf : List Int) (count : Nat) (value : Int) (j : Nat) :
    nth (assignLoop buf count value) j =
      if j < count ∧ j < buf.length then value else nth buf j := by
  induction count with
  | zero => simp [assignLoop]
  | succ n ih =>
      have hstep : assignLoop buf (n + 1) value = (assignLoop buf n value).set n value := by
        simp [assignLoop, List.range_succ]
      rw [hstep]
      by_cases hjn : j = n
      · subst hjn
        by_cases hlen : j < buf.length
        · rw [nth_set_self _ _ _ (by rw [length_assignLoop]; exact hlen)]
          simp [hlen]
        · rw [List.set_eq_of_length_le (by rw [length_assignLoop]; omega), ih]
          simp [hlen]
      · rw [nth_set_ne _ _ _ _ (fun h => hjn h.symm), ih]
        by_cases hj : j < n
        · simp [hj, Nat.lt_succ_of_lt hj]
        · have : ¬ j < n + 1 := by omega
          simp [hj, this]

/-! ### Operation lemmas -/

lemma vector_reserve_noop (vec : CVec) (count : Nat) (allocOk : Bool) (junk : Nat → Int)
    (h : count ≤ vec.capacity) :
    vector_reserve vec count allocOk junk = (vec, true) := by
  simp [vector_reserve, h]

lemma vector_reserve_grow (vec : CVec) (count : Nat) (junk : Nat → Int)
    (h : vec.capacity < count) :
    vector_reserve vec count true junk =
      ({ buf := reallocBuf vec.buf count junk, size := vec.size,
         capacity := count, allocated := true }, true) := by
  simp [vector_reserve, Nat.not_le_of_lt h]

lemma vector_reserve_bad (vec : CVec) (count : Nat) (junk : Nat → Int)
    (h : vec.capacity < count) :
    vector_reserve vec count false junk = (vec, false) := by
  simp [vector_reserve, Nat.not_le_of_lt h]

lemma vector_reserve_of_fail (vec : CVec) (count : Nat) (allocOk : Bool) (junk : Nat → Int)
    (h : (vector_reserve vec count allocOk junk).2 = false) :
    (vector_reserve vec count allocOk junk).1 = vec := by
  by_cases h1 : count ≤ vec.capacity
  · simp [vector_reserve, h1]
  · cases allocOk
    · simp [vector_reserve, h1]
    · simp [vector_reserve, h1] at h

lemma VecInv_reserve (vec : CVec) (count : Nat) (allocOk : Bool) (junk : Nat → Int)
    (h : VecInv vec) :
    VecInv (vector_reserve vec count allocOk junk).1 := by
  obtain ⟨h1, h2, h3⟩ := h
  by_cases hle : count ≤ vec.capacity
  · simpa [vector_reserve, hle] using ⟨h1, h2, h3⟩
  · cases allocOk
    · simpa [vector_reserve, hle] using ⟨h1, h2, h3⟩
    · simp only [vector_reserve, hle, if_false, if_true]
      refine ⟨?_, ?_, ?_⟩
      · show vec.size ≤ count
        omega
      · show true = true ↔ count ≠ 0
        simp
        omega
      · show (reallocBuf vec.buf count junk).length = count
        exact length_reallocBuf _ _ _

lemma VecInv_empty : VecInv { buf := [], size := 0, capacity := 0, allocated := false } :=
  ⟨Nat.le_refl 0, by simp, rfl⟩

lemma init_true_eq (vec : CVec) (junk : Nat → Int) :
    vector_init vec true junk =
      ({ buf := reallocBuf [] 8 junk, size := 0, capacity := 8, allocated := true }, true) := by
  simp [vector_init, vector_reserve]

lemma VecInv_init (vec : CVec) (allocOk : Bool) (junk : Nat → Int) :
    VecInv (vector_init vec allocOk junk).1 :=
  VecInv_reserve _ _ _ _ VecInv_empty

lemma VecInv_clear (vec : CVec) : VecInv (vector_clear vec) :=
  VecInv_empty

lemma VecInv_resize (vec : CVec) (count : Nat) (allocOk : Bool) (junk : Nat → Int)
    (h : VecInv vec) :
    VecInv (vector_resize vec count allocOk junk).1 := by
  by_cases h0 : count = 0
  · simpa [vector_resize, h0] using VecInv_empty
  · cases allocOk
    · simpa [vector_resize, h0] using h
    · simp only [vector_resize, h0, if_false, if_true]
      refine ⟨?_, ?_, ?_⟩
      · show count ≤ count
        exact Nat.le_refl _
      · show true = true ↔ count ≠ 0
        simp [h0]
      · show (reallocBuf vec.buf count junk).length = count
        exact length_reallocBuf _ _ _

lemma vector_resize_fail (vec : CVec) (count : Nat) (allocOk : Bool) (junk : Nat → Int)
    (h : (vector_resize vec count allocOk junk).2 = false) :
    (vector_resize vec count allocOk junk).1 = vec := by
  by_cases h0 : count = 0
  · simp [vector_resize, h0] at h
  · cases allocOk
    · simp [vector_resize, h0]
    · simp [vector_resize, h0] at h

lemma vector_resize_succ (vec : CVec) (count : Nat) (allocOk : Bool) (junk : Nat → Int)
    (h2 : (vector_resize vec count allocOk junk).2 = true) :
    (vector_resize vec count allocOk junk).1.size = count ∧
    (vector_resize vec count allocOk junk).1.capacity = count ∧
    (vector_resize vec count allocOk junk).1.buf.length = count := by
  by_cases h0 : count = 0
  · subst h0
    unfold vector_resize
    rw [if_pos rfl]
    exact ⟨rfl, rfl, rfl⟩
  · cases allocOk
    · exfalso
      unfold vector_resize at h2
      rw [if_neg h0] at h2
      simp at h2
    · unfold vector_resize
      rw [if_neg h0]
      exact ⟨rfl, rfl, length_reallocBuf _ _ _⟩

lemma VecInv_assign (vec : CVec) (count : Nat) (value : Int) (allocOk : Bool)
    (junk : Nat → Int) (h : VecInv vec) :
    VecInv (vector_assign vec count value allocOk junk).1 := by
  have hr := VecInv_resize vec count allocOk junk h
  unfold vector_assign
  cases h2 : (vector_resize vec count allocOk junk).2
  · simpa [h2] using hr
  · simp only [h2, if_true]
    exact ⟨hr.1, hr.2.1, by rw [length_assignLoop]; exact hr.2.2⟩

lemma growStep_fail (vec : CVec) (allocOk : Bool) (junk : Nat → Int)
    (h : (growStep vec allocOk junk).2 = false) :
    (growStep vec allocOk junk).1 = vec := by
  by_cases hc : vec.size = vec.capacity
  · simp only [growStep, hc, if_true] at h ⊢
    exact vector_reserve_of_fail _ _ _ _ h
  · simp [growStep, hc]

lemma VecInv_mk_realloc (old : List Int) (sz count : Nat) (junk : Nat → Int)
    (hsz : sz ≤ count) (hc : count ≠ 0) :
    VecInv { buf := reallocBuf old count junk, size := sz, capacity := count,
             allocated := true } :=
  ⟨hsz, by simp [hc], length_reallocBuf _ _ _⟩

lemma growStep_true (vec : CVec) (junk : Nat → Int) :
    (growStep vec true junk).2 = true := by
  by_cases hc : vec.size = vec.capacity
  · unfold growStep
    rw [if_pos hc]
    by_cases hle : 2 * vec.size + 1 ≤ vec.capacity
    · rw [vector_reserve_noop _ _ _ _ hle]
    · rw [vector_reserve_grow _ _ _ (by omega)]
  · unfold growStep
    rw [if_neg hc]

lemma growStep_succ (vec : CVec) (allocOk : Bool) (junk : Nat → Int)
    (h : VecInv vec) (h2 : (growStep vec allocOk junk).2 = true) :
    (growStep vec allocOk junk).1.size = vec.size ∧
    vec.size < (growStep vec allocOk junk).1.capacity ∧
    VecInv (growStep vec allocOk junk).1 ∧
    (∀ i, i < vec.size → nth (growStep vec allocOk junk).1.buf i = nth vec.buf i) ∧
    (growStep vec allocOk junk).1.capacity =
      (if vec.size = vec.capacity then 2 * vec.size + 1 else vec.capacity) := by
  obtain ⟨h1, hal, hlen⟩ := h
  by_cases hc : vec.size = vec.capacity
  · have hgt : vec.capacity < 2 * vec.size + 1 := by omega
    cases allocOk
    · exfalso
      unfold growStep at h2
      rw [if_pos hc, vector_reserve_bad _ _ _ hgt] at h2
      simp at h2
    · have hg : growStep vec true junk =
          ({ buf := reallocBuf vec.buf (2 * vec.size + 1) junk, size := vec.size,
             capacity := 2 * vec.size + 1, allocated := true }, true) := by
        unfold growStep
        rw [if_pos hc]
        exact vector_reserve_grow _ _ _ hgt
      rw [hg]
      refine ⟨rfl, ?_, ?_, ?_, ?_⟩
      · show vec.size < 2 * vec.size + 1
        omega
      · exact VecInv_mk_realloc _ _ _ _ (by omega) (by omega)
      · intro i hi
        show nth (reallocBuf vec.buf (2 * vec.size + 1) junk) i = nth vec.buf i
        exact nth_reallocBuf_keep _ _ _ _ (by omega) (by omega)
      · show 2 * vec.size + 1 = if vec.size = vec.capacity then 2 * vec.size + 1 else vec.capacity
        rw [if_pos hc]
  · have hg : growStep vec allocOk junk = (vec, true) := by
      unfold growStep
      rw [if_neg hc]
    rw [hg]
    refine ⟨rfl, ?_, ⟨h1, hal, hlen⟩, fun i _ => rfl, by rw [if_neg hc]⟩
    show vec.size < vec.capacity
    omega

lemma push_back_flag (vec : CVec) (value : Int) (allocOk : Bool) (junk : Nat → Int) :
    (vector_push_back vec value allocOk junk).2 = (growStep vec allocOk junk).2 := by
  unfold vector_push_back
  cases h : (growStep vec allocOk junk).2 <;> simp [h]

lemma push_back_fail (vec : CVec) (value : Int) (allocOk : Bool) (junk : Nat → Int)
    (h : (vector_push_back vec value allocOk junk).2 = false) :
    (vector_push_back vec value allocOk junk).1 = vec := by
  have hg : (growStep vec allocOk junk).2 = false := by
    rw [← push_back_flag vec value allocOk junk]
    exact h
  unfold vector_push_back
  simp only [hg, if_false]
  exact growStep_fail _ _ _ hg

lemma push_back_spec (vec : CVec) (value : Int) (allocOk : Bool) (junk : Nat → Int)
    (h : VecInv vec) (h2 : (vector_push_back vec value allocOk junk).2 = true) :
    (vector_push_back vec value allocOk junk).1.size = vec.size + 1 ∧
    VecInv (vector_push_back vec value allocOk junk).1 ∧
    (∀ i, i < vec.size → nth (vector_push_back vec value allocOk junk).1.buf i = nth vec.buf i) ∧
    nth (vector_push_back vec value allocOk junk).1.buf vec.size = value ∧
    (vector_push_back vec value allocOk junk).1.capacity =
      (if vec.size = vec.capacity then 2 * vec.size + 1 else vec.capacity) := by
  have hg : (growStep vec allocOk junk).2 = true := by
    rw [← push_back_flag vec value allocOk junk]
    exact h2
  obtain ⟨hsz, hroom, ⟨g1, g2, g3⟩, hkeep, hcap⟩ := growStep_succ vec allocOk junk h hg
  unfold vector_push_back
  simp only [hg, if_true]
  set w := (growStep vec allocOk junk).1 with hw
  have hwlen : vec.size < w.buf.length := by omega
  refine ⟨by simp [hsz], ⟨?_, ?_, ?_⟩, ?_, ?_, by simp [hcap]⟩
  · show w.size + 1 ≤ w.capacity
    omega
  · show w.allocated = true ↔ w.capacity ≠ 0
    exact g2
  · show (w.buf.set w.size value).length = w.capacity
    simp [g3]
  · intro i hi
    show nth (w.buf.set w.size value) i = nth vec.buf i
    rw [nth_set_ne _ _ _ _ (by omega)]
    exact hkeep i hi
  · show nth (w.buf.set w.size value) vec.size = value
    rw [← hsz] at hwlen ⊢
    exact nth_set_self _ _ _ hwlen

lemma VecInv_push_back (vec : CVec) (value : Int) (allocOk : Bool) (junk : Nat → Int)
    (h : VecInv vec) :
    VecInv (vector_push_back vec value allocOk junk).1 := by
  cases h2 : (vector_push_back vec value allocOk junk).2
  · rw [push_back_fail _ _ _ _ h2]
    exact h
  · exact (push_back_spec vec value allocOk junk h h2).2.1

lemma VecInv_pop_back (vec : CVec) (h : VecInv vec) :
    VecInv (vector_pop_back vec).1 := by
  obtain ⟨h1, h2, h3⟩ := h
  by_cases h0 : vec.size = 0
  · unfold vector_pop_back
    rw [if_pos h0]
    exact ⟨h1, h2, h3⟩
  · unfold vector_pop_back
    rw [if_neg h0]
    refine ⟨?_, h2, h3⟩
    show vec.size - 1 ≤ vec.capacity
    omega

lemma vector_insert_oob (vec : CVec) (index : Nat) (value : Int) (allocOk : Bool)
    (junk : Nat → Int) (h : vec.size ≤ index) :
    vector_insert vec index value allocOk junk = (vec, false) := by
  unfold vector_insert
  rw [if_pos h]

lemma insert_spec (vec : CVec) (index : Nat) (value : Int) (junk : Nat → Int)
    (hInv : VecInv vec) (hidx : index < vec.size) :
    (vector_insert vec index value true junk).2 = true ∧
    (vector_insert vec index value true junk).1.size = vec.size + 1 ∧
    VecInv (vector_insert vec index value true junk).1 ∧
    nth (vector_insert vec index value true junk).1.buf index = value ∧
    (∀ j, j < index → nth (vector_insert vec index value true junk).1.buf j = nth vec.buf j) ∧
    (∀ j, index ≤ j → j < vec.size →
      nth (vector_insert vec index value true junk).1.buf (j + 1) = nth vec.buf j) := by
  have hg := growStep_true vec junk
  obtain ⟨hsz, hroom, ⟨g1, g2, g3⟩, hkeep, hcap⟩ := growStep_succ vec true junk hInv hg
  unfold vector_insert
  rw [if_neg (by omega)]
  simp only [hg, if_true]
  set w := (growStep vec true junk).1 with hw
  have hL : vec.size < w.buf.length := by omega
  refine ⟨by trivial, ?_, ⟨?_, g2, ?_⟩, ?_, ?_, ?_⟩
  · show w.size + 1 = vec.size + 1
    omega
  · show w.size + 1 ≤ w.capacity
    omega
  · show ((memmove w.buf (index + 1) index (w.size - index)).set index value).length = w.capacity
    rw [List.length_set, length_memmove]
    exact g3
  · show nth ((memmove w.buf (index + 1) index (w.size - index)).set index value) index = value
    exact nth_set_self _ _ _ (by rw [length_memmove]; omega)
  · intro j hj
    show nth ((memmove w.buf (index + 1) index (w.size - index)).set index value) j
      = nth vec.buf j
    rw [nth_set_ne _ _ _ _ (by omega),
      nth_memmove_out _ _ _ _ _ (by omega) (Or.inl (by omega))]
    exact hkeep j (by omega)
  · intro j hj1 hj2
    show nth ((memmove w.buf (index + 1) index (w.size - index)).set index value) (j + 1)
      = nth vec.buf j
    rw [nth_set_ne _ _ _ _ (by omega),
      nth_memmove_in _ _ _ _ _ (by omega) (by omega) (by omega)]
    have heq : index + (j + 1 - (index + 1)) = j := by omega
    rw [heq]
    exact hkeep j (by omega)

lemma VecInv_insert (vec : CVec) (index : Nat) (value : Int) (allocOk : Bool)
    (junk : Nat → Int) (h : VecInv vec) :
    VecInv (vector_insert vec index value allocOk junk).1 := by
  by_cases hoob : vec.size ≤ index
  · rw [vector_insert_oob _ _ _ _ _ hoob]
    exact h
  · cases h2 : (growStep vec allocOk junk).2
    · unfold vector_insert
      rw [if_neg hoob]
      simp only [h2, Bool.false_eq_true, if_false]
      rw [growStep_fail _ _ _ h2]
      exact h
    · obtain ⟨hsz, hroom, ⟨g1, g2, g3⟩, hkeep, hcap⟩ := growStep_succ vec allocOk junk h h2
      unfold vector_insert
      rw [if_neg hoob]
      simp only [h2, if_true]
      set w := (growStep vec allocOk junk).1 with hw
      refine ⟨?_, g2, ?_⟩
      · show w.size + 1 ≤ w.capacity
        omega
      · show ((memmove w.buf (index + 1) index (w.size - index)).set index value).length
          = w.capacity
        rw [List.length_set, length_memmove]
        exact g3

lemma erase_range_invalid (vec : CVec) (l r : Nat) (h : r < l ∨ vec.size ≤ r) :
    vector_erase_range vec l r = (vec, false) := by
  unfold vector_erase_range
  rw [if_pos h]

lemma erase_range_valid (vec : CVec) (l r : Nat) (hlr : l ≤ r) (hr : r < vec.size) :
    vector_erase_range vec l r =
      ({ vec with
         buf := memmove vec.buf l (r + 1) (vec.size - r - 1),
         size := vec.size - (r - l + 1) }, true) := by
  unfold vector_erase_range
  rw [if_neg (by omega)]

lemma VecInv_erase_range (vec : CVec) (l r : Nat) (h : VecInv vec) :
    VecInv (vector_erase_range vec l r).1 := by
  by_cases hv : r < l ∨ vec.size ≤ r
  · rw [erase_range_invalid _ _ _ hv]
    exact h
  · obtain ⟨h1, h2, h3⟩ := h
    rw [erase_range_valid _ _ _ (by omega) (by omega)]
    refine ⟨?_, h2, ?_⟩
    · show vec.size - (r - l + 1) ≤ vec.capacity
      omega
    · show (memmove vec.buf l (r + 1) (vec.size - r - 1)).length = vec.capacity
      rw [length_memmove]
      exact h3

lemma VecInv_erase (vec : CVec) (index : Nat) (h : VecInv vec) :
    VecInv (vector_erase vec index).1 :=
  VecInv_erase_range vec index index h

lemma VecInv_applyOp (op : Op) (allocOk : Bool) (junk : Nat → Int) (vec : CVec)
    (h : VecInv vec) :
    VecInv (applyOp op allocOk junk vec) := by
  cases op with
  | init =>
      show VecInv (vector_init vec allocOk junk).1
      exact VecInv_init _ _ _
  | clear =>
      show VecInv (vector_clear vec)
      exact VecInv_clear vec
  | reserve count =>
      show VecInv (vector_reserve vec count allocOk junk).1
      exact VecInv_reserve _ _ _ _ h
  | resize count =>
      show VecInv (vector_resize vec count allocOk junk).1
      exact VecInv_resize _ _ _ _ h
  | assign count value =>
      show VecInv (vector_assign vec count value allocOk junk).1
      exact VecInv_assign _ _ _ _ _ h
  | push_back value =>
      show VecInv (vector_push_back vec value allocOk junk).1
      exact VecInv_push_back _ _ _ _ h
  | pop_back =>
      show VecInv (vector_pop_back vec).1
      exact VecInv_pop_back _ h
  | insert index value =>
      show VecInv (vector_insert vec index value allocOk junk).1
      exact VecInv_insert _ _ _ _ _ h
  | erase_range leftmost rightmost =>
      show VecInv (vector_erase_range vec leftmost rightmost).1
      exact VecInv_erase_range _ _ _ h
  | erase index =>
      show VecInv (vector_erase vec index).1
      exact VecInv_erase _ _ h

lemma pushAll_spec (vs : List Int) (junk : Nat → Int) :
    ∀ (vec : CVec), VecInv vec →
      VecInv (pushAll vs junk vec) ∧
      (pushAll vs junk vec).size = vec.size + vs.length ∧
      (∀ i, i < vec.size → nth (pushAll vs junk vec).buf i = nth vec.buf i) ∧
      (∀ j, j < vs.length → nth (pushAll vs junk vec).buf (vec.size + j) = vs.getD j 0) := by
  induction vs with
  | nil =>
      intro vec h
      refine ⟨h, by simp [pushAll], fun i _ => rfl, fun j hj => absurd hj (by simp)⟩
  | cons v vs ih =>
      intro vec h
      have hflag : (vector_push_back vec v true junk).2 = true := by
        rw [push_back_flag]
        exact growStep_true vec junk
      obtain ⟨psz, pinv, pkeep, pval, pcap⟩ := push_back_spec vec v true junk h hflag
      have hstep : pushAll (v :: vs) junk vec =
          pushAll vs junk (vector_push_back vec v true junk).1 := rfl
      obtain ⟨qinv, qsz, qkeep, qval⟩ := ih (vector_push_back vec v true junk).1 pinv
      rw [hstep]
      refine ⟨qinv, by simp only [List.length_cons]; omega, ?_, ?_⟩
      · intro i hi
        rw [qkeep i (by omega)]
        exact pkeep i hi
      · intro j hj
        cases j with
        | zero =>
            have : vec.size + 0 = (vector_push_back vec v true junk).1.size - 1 := by omega
            rw [Nat.add_zero]
            have hv2 : nth (pushAll vs junk (vector_push_back vec v true junk).1).buf vec.size
                = nth (vector_push_back vec v true junk).1.buf vec.size := by
              apply qkeep
              omega
            rw [hv2, pval]
            rfl
        | succ k =>
            have hk : k < vs.length := by
              simp at hj
              omega
            have : vec.size + (k + 1) = (vector_push_back vec v true junk).1.size + k := by
              omega
            rw [this, qval k hk]
            rfl

/-! ### Claim theorems -/

/-- Claim C1, counterexample: on a concrete run where the initial
allocation succeeds, init returns OK but leaves capacity 8 with an
allocated buffer, refuting the claimed size-0/capacity-0/unallocated
post-state of a successful init. -/
theorem C1_counterexample :
    (vector_init { buf := [], size := 0, capacity := 0, allocated := false } true
      (fun _ => 0)).2 = true ∧
    ¬ ((vector_init { buf := [], size := 0, capacity := 0, allocated := false } true
          (fun _ => 0)).1.capacity = 0 ∧
       (vector_init { buf := [], size := 0, capacity := 0, allocated := false } true
          (fun _ => 0)).1.allocated = false) := by
  decide

/-- Claim C1 (amended): after a successful init the vector has size 0
and capacity 8, with an 8-slot buffer eagerly allocated: init invokes
the reserve growth logic with INIT_CAPACITY = 8 rather than deferring
allocation. -/
theorem C1_init_eager (vec : CVec) (junk : Nat → Int) :
    (vector_init vec true junk).2 = true ∧
    (vector_init vec true junk).1.size = 0 ∧
    (vector_init vec true junk).1.capacity = 8 ∧
    (vector_init vec true junk).1.allocated = true ∧
    (vector_init vec true junk).1.buf.length = 8 := by
  rw [init_true_eq]
  exact ⟨rfl, rfl, rfl, rfl, length_reallocBuf _ _ _⟩

/-- Claim C2 (code bug): resize of the vector [5] (size 1) to count 3
succeeds with size 3, but the grown slots [1, 3) hold the unspecified
realloc contents (here 7), not zero: the memset of the C code starts at
offset count past the end of the new block (through the stale
pre-realloc pointer), so no new slot is zeroed. -/
theorem C2_resize_not_zeroed :
    (vector_resize { buf := [5], size := 1, capacity := 1, allocated := true } 3 true
      (fun _ => 7)).2 = true ∧
    (vector_resize { buf := [5], size := 1, capacity := 1, allocated := true } 3 true
      (fun _ => 7)).1.size = 3 ∧
    (vector_resize { buf := [5], size := 1, capacity := 1, allocated := true } 3 true
      (fun _ => 7)).1.buf = [5, 7, 7] ∧
    nth (vector_resize { buf := [5], size := 1, capacity := 1, allocated := true } 3 true
      (fun _ => 7)).1.buf 1 ≠ 0 := by
  decide

/-- Claim C3: pushing a sequence of values onto a freshly initialized
vector (all allocations succeeding) gives size equal to the number of
pushes with slot i holding the i-th pushed value; moreover after any
successful push capacity is at least size, capacity is unchanged unless
size equalled capacity before the push, and in that case the new
capacity is 2 * old_size + 1. -/
theorem C3_push_back_props :
    (∀ (vs : List Int) (junk : Nat → Int) (vec0 : CVec),
      (pushAll vs junk (vector_init vec0 true junk).1).size = vs.length ∧
      (∀ i, i < vs.length →
        nth (pushAll vs junk (vector_init vec0 true junk).1).buf i = vs.getD i 0)) ∧
    (∀ (vec : CVec) (value : Int) (junk : Nat → Int), VecInv vec →
      (vector_push_back vec value true junk).1.size
          ≤ (vector_push_back vec value true junk).1.capacity ∧
      (vec.size ≠ vec.capacity →
        (vector_push_back vec value true junk).1.capacity = vec.capacity) ∧
      (vec.size = vec.capacity →
        (vector_push_back vec value true junk).1.capacity = 2 * vec.size + 1)) := by
  constructor
  · intro vs junk vec0
    have h0 : VecInv (vector_init vec0 true junk).1 := VecInv_init _ _ _
    have hsz : (vector_init vec0 true junk).1.size = 0 := by
      rw [init_true_eq]
    obtain ⟨qinv, qsz, qkeep, qval⟩ := pushAll_spec vs junk _ h0
    constructor
    · rw [qsz, hsz]
      exact Nat.zero_add _
    · intro i hi
      have hv := qval i hi
      rw [hsz, Nat.zero_add] at hv
      exact hv
  · intro vec value junk h
    have hflag : (vector_push_back vec value true junk).2 = true := by
      rw [push_back_flag]
      exact growStep_true vec junk
    obtain ⟨psz, ⟨p1, _, _⟩, _, _, pcap⟩ := push_back_spec vec value true junk h hflag
    refine ⟨p1, ?_, ?_⟩
    · intro hne
      rw [pcap, if_neg hne]
    · intro heq
      rw [pcap, if_pos heq]

/-- Witness for C3 at the full vector [9] of size 1 = capacity 1. -/
theorem C3_witness :
    VecInv { buf := [9], size := 1, capacity := 1, allocated := true } ∧
    ((vector_push_back { buf := [9], size := 1, capacity := 1, allocated := true } 4 true
        (fun _ => 0)).1.size
      ≤ (vector_push_back { buf := [9], size := 1, capacity := 1, allocated := true } 4 true
        (fun _ => 0)).1.capacity ∧
     (({ buf := [9], size := 1, capacity := 1, allocated := true } : CVec).size
        ≠ ({ buf := [9], size := 1, capacity := 1, allocated := true } : CVec).capacity →
      (vector_push_back { buf := [9], size := 1, capacity := 1, allocated := true } 4 true
        (fun _ => 0)).1.capacity = 1) ∧
     (({ buf := [9], size := 1, capacity := 1, allocated := true } : CVec).size
        = ({ buf := [9], size := 1, capacity := 1, allocated := true } : CVec).capacity →
      (vector_push_back { buf := [9], size := 1, capacity := 1, allocated := true } 4 true
        (fun _ => 0)).1.capacity = 3)) :=
  ⟨by decide, C3_push_back_props.2 { buf := [9], size := 1, capacity := 1, allocated := true }
    4 (fun _ => 0) (by decide)⟩

/-- Claim C4: insert at a valid index (with the allocation, if any,
succeeding) returns OK, increments size, stores the value at the index,
shifts the elements formerly at [index, size) one slot right in order,
and leaves [0, index) unchanged. -/
theorem C4_insert_valid (vec : CVec) (index : Nat) (value : Int) (junk : Nat → Int)
    (hInv : VecInv vec) (hidx : index < vec.size) :
    (vector_insert vec index value true junk).2 = true ∧
    (vector_insert vec index value true junk).1.size = vec.size + 1 ∧
    nth (vector_insert vec index value true junk).1.buf index = value ∧
    (∀ j, index ≤ j → j < vec.size →
      nth (vector_insert vec index value true junk).1.buf (j + 1) = nth vec.buf j) ∧
    (∀ j, j < index → nth (vector_insert vec index value true junk).1.buf j = nth vec.buf j) := by
  obtain ⟨a, b, _, c, d, e⟩ := insert_spec vec index value junk hInv hidx
  exact ⟨a, b, c, e, d⟩

/-- Witness for C4: insert 9 at index 1 of [1, 2, 3]. -/
theorem C4_witness :
    VecInv { buf := [1, 2, 3], size := 3, capacity := 3, allocated := true } ∧ 1 < 3 ∧
    ((vector_insert { buf := [1, 2, 3], size := 3, capacity := 3, allocated := true } 1 9 true
        (fun _ => 0)).2 = true ∧
     (vector_insert { buf := [1, 2, 3], size := 3, capacity := 3, allocated := true } 1 9 true
        (fun _ => 0)).1.size = 4 ∧
     nth (vector_insert { buf := [1, 2, 3], size := 3, capacity := 3, allocated := true } 1 9 true
        (fun _ => 0)).1.buf 1 = 9 ∧
     (∀ j, 1 ≤ j → j < 3 →
       nth (vector_insert { buf := [1, 2, 3], size := 3, capacity := 3, allocated := true } 1 9
          true (fun _ => 0)).1.buf (j + 1) = nth [1, 2, 3] j) ∧
     (∀ j, j < 1 →
       nth (vector_insert { buf := [1, 2, 3], size := 3, capacity := 3, allocated := true } 1 9
          true (fun _ => 0)).1.buf j = nth [1, 2, 3] j)) :=
  ⟨by decide, by decide,
    C4_insert_valid { buf := [1, 2, 3], size := 3, capacity := 3, allocated := true } 1 9
      (fun _ => 0) (by decide) (by decide)⟩

/-- Claim C5: insert at index = size (and more generally any index at or
beyond size, hence any insert into an empty vector) fails and returns
the vector completely unchanged; insert never appends. -/
theorem C5_insert_no_append (vec : CVec) (index : Nat) (value : Int) (allocOk : Bool)
    (junk : Nat → Int) (h : vec.size ≤ index) :
    vector_insert vec index value allocOk junk = (vec, false) :=
  vector_insert_oob vec index value allocOk junk h

/-- Witness for C5: insert into an empty vector at index 0 = size. -/
theorem C5_witness :
    ({ buf := [], size := 0, capacity := 0, allocated := false } : CVec).size ≤ 0 ∧
    vector_insert { buf := [], size := 0, capacity := 0, allocated := false } 0 7 true
        (fun _ => 0)
      = ({ buf := [], size := 0, capacity := 0, allocated := false }, false) :=
  ⟨by decide, C5_insert_no_append _ 0 7 true (fun _ => 0) (by decide)⟩

/-- Claim C6: every operation preserves the data-model invariants
(size at most capacity, buffer null/unallocated exactly when capacity is
0, block of capacity slots); in particular clear and resize(0) land in
the unallocated capacity-0 state. -/
theorem C6_invariants (op : Op) (allocOk : Bool) (junk : Nat → Int) (vec : CVec)
    (h : VecInv vec) :
    VecInv (applyOp op allocOk junk vec) ∧
    (vector_clear vec).allocated = false ∧ (vector_clear vec).capacity = 0 ∧
    (vector_resize vec 0 allocOk junk).1.allocated = false ∧
    (vector_resize vec 0 allocOk junk).1.capacity = 0 :=
  ⟨VecInv_applyOp op allocOk junk vec h, rfl, rfl, rfl, rfl⟩

/-- Witness for C6: a push onto the full vector [4] keeps the invariants. -/
theorem C6_witness :
    VecInv { buf := [4], size := 1, capacity := 1, allocated := true } ∧
    (VecInv (applyOp (Op.push_back 2) true (fun _ => 0)
        { buf := [4], size := 1, capacity := 1, allocated := true }) ∧
     (vector_clear { buf := [4], size := 1, capacity := 1, allocated := true }).allocated
        = false ∧
     (vector_clear { buf := [4], size := 1, capacity := 1, allocated := true }).capacity = 0 ∧
     (vector_resize { buf := [4], size := 1, capacity := 1, allocated := true } 0 true
        (fun _ => 0)).1.allocated = false ∧
     (vector_resize { buf := [4], size := 1, capacity := 1, allocated := true } 0 true
        (fun _ => 0)).1.capacity = 0) :=
  ⟨by decide, C6_invariants (Op.push_back 2) true (fun _ => 0)
    { buf := [4], size := 1, capacity := 1, allocated := true } (by decide)⟩

/-- Claim C7: erase_range(l, r) succeeds exactly when l is at most r and
r is below size; on success the size shrinks by the range length, the
elements before l are unchanged and the elements formerly after r are
shifted left to start at l in order; on an invalid range the call fails
with the vector unchanged. -/
theorem C7_erase_range_spec (vec : CVec) (l r : Nat) (h : VecInv vec) :
    ((vector_erase_range vec l r).2 = true ↔ (l ≤ r ∧ r < vec.size)) ∧
    (¬ (l ≤ r ∧ r < vec.size) → vector_erase_range vec l r = (vec, false)) ∧
    (l ≤ r → r < vec.size →
      (vector_erase_range vec l r).1.size = vec.size - (r - l + 1) ∧
      (∀ j, j < l → nth (vector_erase_range vec l r).1.buf j = nth vec.buf j) ∧
      (∀ j, r < j → j < vec.size →
        nth (vector_erase_range vec l r).1.buf (l + (j - (r + 1))) = nth vec.buf j)) := by
  obtain ⟨h1, h2, h3⟩ := h
  refine ⟨⟨?_, ?_⟩, ?_, ?_⟩
  · intro hs
    by_contra hn
    rw [erase_range_invalid _ _ _ (by omega)] at hs
    simp at hs
  · rintro ⟨hlr, hr⟩
    rw [erase_range_valid _ _ _ hlr hr]
  · intro hn
    exact erase_range_invalid _ _ _ (by omega)
  · intro hlr hr
    rw [erase_range_valid _ _ _ hlr hr]
    refine ⟨rfl, ?_, ?_⟩
    · intro j hj
      show nth (memmove vec.buf l (r + 1) (vec.size - r - 1)) j = nth vec.buf j
      exact nth_memmove_out _ _ _ _ _ (by omega) (Or.inl hj)
    · intro j hrj hjs
      show nth (memmove vec.buf l (r + 1) (vec.size - r - 1)) (l + (j - (r + 1)))
        = nth vec.buf j
      rw [nth_memmove_in _ _ _ _ _ (by omega) (by omega) (by omega)]
      have heq : r + 1 + (l + (j - (r + 1)) - l) = j := by omega
      rw [heq]

/-- Witness for C7: erasing the range [1, 2] of [1, 2, 3, 4]. -/
theorem C7_witness :
    VecInv { buf := [1, 2, 3, 4], size := 4, capacity := 4, allocated := true } ∧
    (((vector_erase_range { buf := [1, 2, 3, 4], size := 4, capacity := 4, allocated := true }
        1 2).2 = true ↔ (1 ≤ 2 ∧ 2 < 4)) ∧
     (¬ (1 ≤ 2 ∧ 2 < 4) →
       vector_erase_range { buf := [1, 2, 3, 4], size := 4, capacity := 4, allocated := true }
          1 2
         = ({ buf := [1, 2, 3, 4], size := 4, capacity := 4, allocated := true }, false)) ∧
     (1 ≤ 2 → 2 < 4 →
       (vector_erase_range { buf := [1, 2, 3, 4], size := 4, capacity := 4, allocated := true }
          1 2).1.size = 4 - (2 - 1 + 1) ∧
       (∀ j, j < 1 →
         nth (vector_erase_range
            { buf := [1, 2, 3, 4], size := 4, capacity := 4, allocated := true } 1 2).1.buf j
           = nth [1, 2, 3, 4] j) ∧
       (∀ j, 2 < j → j < 4 →
         nth (vector_erase_range
            { buf := [1, 2, 3, 4], size := 4, capacity := 4, allocated := true } 1 2).1.buf
            (1 + (j - (2 + 1)))
           = nth [1, 2, 3, 4] j))) :=
  ⟨by decide, C7_erase_range_spec
    { buf := [1, 2, 3, 4], size := 4, capacity := 4, allocated := true } 1 2 (by decide)⟩

/-- Claim C8: reserve with count at most capacity is a successful no-op
(no reallocation, elements untouched); with count above capacity and a
successful allocation it sets capacity to exactly count preserving
[0, size); on allocation failure it reports failure leaving the vector
unchanged. -/
theorem C8_reserve_spec (vec : CVec) (count : Nat) (junk : Nat → Int) (h : VecInv vec) :
    (∀ allocOk, count ≤ vec.capacity → vector_reserve vec count allocOk junk = (vec, true)) ∧
    (vec.capacity < count →
      (vector_reserve vec count true junk).2 = true ∧
      (vector_reserve vec count true junk).1.capacity = count ∧
      (vector_reserve vec count true junk).1.size = vec.size ∧
      (∀ i, i < vec.size → nth (vector_reserve vec count true junk).1.buf i = nth vec.buf i)) ∧
    (vec.capacity < count → vector_reserve vec count false junk = (vec, false)) := by
  obtain ⟨h1, h2, h3⟩ := h
  refine ⟨fun allocOk hle => vector_reserve_noop _ _ _ _ hle, ?_,
    fun hgt => vector_reserve_bad _ _ _ hgt⟩
  intro hgt
  rw [vector_reserve_grow _ _ _ hgt]
  refine ⟨rfl, rfl, rfl, ?_⟩
  intro i hi
  show nth (reallocBuf vec.buf count junk) i = nth vec.buf i
  exact nth_reallocBuf_keep _ _ _ _ (by omega) (by omega)

/-- Witness for C8: reserving 5 slots on [3, 6] of capacity 2. -/
theorem C8_witness :
    VecInv { buf := [3, 6], size := 2, capacity := 2, allocated := true } ∧
    ((∀ allocOk, 5 ≤ 2 →
        vector_reserve { buf := [3, 6], size := 2, capacity := 2, allocated := true } 5 allocOk
          (fun _ => 0)
        = ({ buf := [3, 6], size := 2, capacity := 2, allocated := true }, true)) ∧
     (2 < 5 →
       (vector_reserve { buf := [3, 6], size := 2, capacity := 2, allocated := true } 5 true
          (fun _ => 0)).2 = true ∧
       (vector_reserve { buf := [3, 6], size := 2, capacity := 2, allocated := true } 5 true
          (fun _ => 0)).1.capacity = 5 ∧
       (vector_reserve { buf := [3, 6], size := 2, capacity := 2, allocated := true } 5 true
          (fun _ => 0)).1.size = 2 ∧
       (∀ i, i < 2 →
         nth (vector_reserve { buf := [3, 6], size := 2, capacity := 2, allocated := true } 5
            true (fun _ => 0)).1.buf i = nth [3, 6] i)) ∧
     (2 < 5 →
       vector_reserve { buf := [3, 6], size := 2, capacity := 2, allocated := true } 5 false
          (fun _ => 0)
         = ({ buf := [3, 6], size := 2, capacity := 2, allocated := true }, false))) :=
  ⟨by decide, C8_reserve_spec { buf := [3, 6], size := 2, capacity := 2, allocated := true } 5
    (fun _ => 0) (by decide)⟩

/-- Claim C9: assign succeeds exactly when the underlying resize does;
a successful assign(count, v) yields size = capacity = count with every
slot of [0, count) equal to v; on failure the vector is unchanged (no
element assigned). -/
theorem C9_assign_spec (vec : CVec) (count : Nat) (value : Int) (allocOk : Bool)
    (junk : Nat → Int) :
    ((vector_assign vec count value allocOk junk).2
        = (vector_resize vec count allocOk junk).2) ∧
    ((vector_assign vec count value allocOk junk).2 = true →
      (vector_assign vec count value allocOk junk).1.size = count ∧
      (vector_assign vec count value allocOk junk).1.capacity = count ∧
      (∀ i, i < count → nth (vector_assign vec count value allocOk junk).1.buf i = value)) ∧
    ((vector_assign vec count value allocOk junk).2 = false →
      (vector_assign vec count value allocOk junk).1 = vec) := by
  cases hflag : (vector_resize vec count allocOk junk).2
  · have ha : vector_assign vec count value allocOk junk
        = ((vector_resize vec count allocOk junk).1, false) := by
      unfold vector_assign
      simp only [hflag, Bool.false_eq_true, if_false]
    rw [ha]
    refine ⟨rfl, ?_, ?_⟩
    · intro hc
      exact absurd hc (by simp)
    · intro _
      show (vector_resize vec count allocOk junk).1 = vec
      exact vector_resize_fail _ _ _ _ hflag
  · obtain ⟨rs, rc, rl⟩ := vector_resize_succ vec count allocOk junk hflag
    have ha : vector_assign vec count value allocOk junk
        = ({ (vector_resize vec count allocOk junk).1 with
             buf := assignLoop (vector_resize vec count allocOk junk).1.buf count value },
           true) := by
      unfold vector_assign
      simp only [hflag, if_true]
    rw [ha]
    refine ⟨rfl, ?_, ?_⟩
    · intro _
      refine ⟨rs, rc, ?_⟩
      intro i hi
      show nth (assignLoop (vector_resize vec count allocOk junk).1.buf count value) i = value
      rw [nth_assignLoop, if_pos ⟨hi, by omega⟩]
    · intro hfalse
      exact Bool.noConfusion hfalse

/-- Witness for C9: assign(5, 7) on a fresh empty vector yields five
sevens (the round-trip scenario of the spec). -/
theorem C9_witness :
    (vector_assign { buf := [], size := 0, capacity := 0, allocated := false } 5 7 true
      (fun _ => 0)).2 = true ∧
    ((vector_assign { buf := [], size := 0, capacity := 0, allocated := false } 5 7 true
        (fun _ => 0)).1.size = 5 ∧
     (vector_assign { buf := [], size := 0, capacity := 0, allocated := false } 5 7 true
        (fun _ => 0)).1.capacity = 5 ∧
     (∀ i, i < 5 →
       nth (vector_assign { buf := [], size := 0, capacity := 0, allocated := false } 5 7 true
          (fun _ => 0)).1.buf i = 7)) :=
  ⟨by decide,
    (C9_assign_spec { buf := [], size := 0, capacity := 0, allocated := false } 5 7 true
      (fun _ => 0)).2.1 (by decide)⟩

/-- Claim C10: when the initial reservation of init fails to allocate,
init reports failure but leaves the valid empty state (null buffer,
size 0, capacity 0), and every subsequent operation behaves exactly as
on that unallocated empty vector. -/
theorem C10_init_alloc_failure (vec : CVec) (junk : Nat → Int) :
    vector_init vec false junk
      = ({ buf := [], size := 0, capacity := 0, allocated := false }, false) ∧
    (∀ (op : Op) (allocOk : Bool) (junk2 : Nat → Int),
      applyOp op allocOk junk2 (vector_init vec false junk).1
        = applyOp op allocOk junk2
            { buf := [], size := 0, capacity := 0, allocated := false }) := by
  have hbase : vector_init vec false junk
      = ({ buf := [], size := 0, capacity := 0, allocated := false }, false) := by
    unfold vector_init
    exact vector_reserve_bad _ _ _ (by decide)
  exact ⟨hbase, fun op a j2 => by rw [hbase]⟩
